import Mathlib

/-
Verification of the discoro distributed scheduler (asyncoro repository,
src/py3/asyncoro/discoro.py and src/py3/asyncoro/httpd.py).

The fleet state (nodes, servers, remote tasks) and the operations that
mutate it are shallowly embedded: Python dicts become association lists
whose first binding wins, object mutation becomes first-occurrence update,
times and float loads become rationals.
-/

set_option autoImplicit false

namespace Discoro

/-! ## Constants from discoro.py -/

def MsgTimeout : Int := 10

def MinPulseInterval : Int := MsgTimeout

def MaxPulseInterval : Int := 10 * MinPulseInterval

/-- Status constants of the Scheduler class (stable wire values). -/
def NodeDiscovered : Nat := 1

def NodeInitialized : Nat := 2

def NodeClosed : Nat := 3

def NodeIgnore : Nat := 4

def NodeDisconnected : Nat := 5

def ServerDiscovered : Nat := 11

def ServerInitialized : Nat := 12

def ServerClosed : Nat := 13

def ServerIgnore : Nat := 14

def ServerDisconnected : Nat := 15

def CoroCreated : Nat := 20

def ComputationClosed : Nat := 25

/-! ## Python dict embedding

Python dicts preserve insertion order and have unique keys; we model them
as association lists where lookup, removal and in-place update all act on
the first occurrence of the key, which coincides with dict behaviour. -/

/-- Lookup modelling d.get(k): the first binding of the key. -/
def dlookup {α : Type} (k : String) : List (String × α) → Option α
  | [] => none
  | p :: rest => if p.1 = k then some p.2 else dlookup k rest

/-- Assignment d[k] = v: overwrite the first binding, or append. -/
def dinsert {α : Type} (k : String) (v : α) : List (String × α) → List (String × α)
  | [] => [(k, v)]
  | p :: rest => if p.1 = k then (k, v) :: rest else p :: dinsert k v rest

/-- Removal d.pop(k): drop the first binding of the key, if any. -/
def derase {α : Type} (k : String) : List (String × α) → List (String × α)
  | [] => []
  | p :: rest => if p.1 = k then rest else p :: derase k rest

/-- In-place mutation of the object stored under a key. -/
def dmodify {α : Type} (k : String) (f : α → α) : List (String × α) → List (String × α)
  | [] => []
  | p :: rest => if p.1 = k then (p.1, f p.2) :: rest else p :: dmodify k f rest

/-! ## Data model -/

/-- Task endpoint address, a (host, port) pair. -/
structure Location where
  addr : String
  port : Nat
deriving DecidableEq

/-- String form of a Location, as used for dict keys (str(location)). -/
def locKey (l : Location) : String := l.addr ++ ":" ++ toString l.port

/-- A remote coroutine handle; rid stands for str(rcoro), the key used in
the coros and done dicts. -/
structure Rcoro where
  location : Location
  rid : String
deriving DecidableEq

/-- A remote-task termination notification delivered by the transport. -/
structure MonitorException where
  rcoro : Rcoro
  info : String
deriving DecidableEq

/-- Scheduler._Server: per-server fleet state. -/
structure Server where
  name : String
  location : Location
  coros : List (String × Rcoro)
  done : List (String × MonitorException)
  status : Option Nat
  coro : Option Unit
  xfer_files : List String
  last_pulse : ℚ
deriving DecidableEq

/-- Scheduler._Node: per-node fleet state. -/
structure Node where
  addr : String
  servers : List (String × Server)
  ncoros : Int
  status : Option Nat
deriving DecidableEq

/-- The server-side view of the active computation that the close paths
consult (only presence and the auth token matter to the claims). -/
structure CompSrv where
  auth : String
  status_coro : Option Unit
deriving DecidableEq

/-- The scheduler state the claims quantify over: the node registry, the
active computation, the client auth token and the staging directories. -/
structure SchedState where
  nodes : List (String × Node)
  cur_computation : Option CompSrv
  cur_client_auth : Option String
  dest_path : String
  dirs : List String
deriving DecidableEq

/-- os.path.join(dest_path, auth): the staging directory of a computation. -/
def authDir (dest a : String) : String := dest ++ "/" ++ a

/-! ## The ncoros summary counter invariant -/

/-- Contribution of one server to its node load: the number of active
tasks if the server is Initialized, else nothing. -/
def svLoad (s : Server) : Int :=
  if s.status = some ServerInitialized then (s.coros.length : Int) else 0

/-- Sum of len(server.coros) over the Initialized servers of a dict. -/
def initLoad : List (String × Server) → Int
  | [] => 0
  | p :: rest => svLoad p.2 + initLoad rest

/-- The spec invariant: every node counter equals the summed load of its
Initialized servers. -/
def fleetInv (st : SchedState) : Prop :=
  ∀ p ∈ st.nodes, p.2.ncoros = initLoad p.2.servers

instance (st : SchedState) : Decidable (fleetInv st) := by
  unfold fleetInv
  infer_instance


/-! ## Status processor: remote-task termination (Scheduler.__status_proc,
MonitorException branch) -/

/-- Processing of a remote-task termination event: locate the node and
server by the task location; if the task was in coros, remove it and
decrement the node counter; otherwise buffer the event in done. -/
def status_monitor (st : SchedState) (msg : MonitorException) : SchedState :=
  let addr := msg.rcoro.location.addr
  let skey := locKey msg.rcoro.location
  match dlookup addr st.nodes with
  | none => st
  | some node =>
    match dlookup skey node.servers with
    | none => st
    | some server =>
      match dlookup msg.rcoro.rid server.coros with
      | none =>
        { st with nodes := dmodify addr (fun n =>
            { n with servers := dmodify skey (fun s =>
                { s with done := dinsert msg.rcoro.rid msg s.done }) n.servers }) st.nodes }
      | some _ =>
        { st with nodes := dmodify addr (fun n =>
            { n with ncoros := n.ncoros - 1,
                     servers := dmodify skey (fun s =>
                       { s with coros := derase msg.rcoro.rid s.coros }) n.servers }) st.nodes }

/-! ## Spawn protocol (Scheduler._Server.run) -/

/-- What the scheduler delivers back to the client after a spawn. -/
inductive RunReply where
  | handle (r : Rcoro)
  | term (m : MonitorException)
  | nullReply
deriving DecidableEq

/-- The spawn-acknowledgment step of _Server.run: the agent returned a
task handle; consume a buffered termination from done if one exists,
otherwise record the task and report a counter increment of one. -/
def server_spawn_ack (s : Server) (r : Rcoro) : Server × Int × RunReply :=
  match dlookup r.rid s.done with
  | none => ({ s with coros := dinsert r.rid r s.coros }, 1, RunReply.handle r)
  | some d => ({ s with done := derase r.rid s.done }, 0, RunReply.term d)

/-- Scheduler._Server.run, acting on the server at (addr, skey), where
reply is what the server agent answered to the run request (a handle, or
nothing on failure or timeout). The second component lists the messages
delivered to the client coroutine. -/
def run_on_server (st : SchedState) (addr skey : String) (reply : Option Rcoro) :
    SchedState × List RunReply :=
  match dlookup addr st.nodes with
  | none => (st, [])
  | some node =>
    match dlookup skey node.servers with
    | none => (st, [])
    | some server =>
      if server.status ≠ some ServerInitialized then (st, [])
      else if st.cur_computation = none then (st, [])
      else
        match reply with
        | none => (st, [RunReply.nullReply])
        | some r =>
          let res := server_spawn_ack server r
          ({ st with nodes := dmodify addr (fun n =>
              { n with ncoros := n.ncoros + res.2.1,
                       servers := dmodify skey (fun _ => res.1) n.servers }) st.nodes },
           [res.2.2])

/-! ## Teardown (Scheduler.__close_server, __close_node,
__close_computation) and peer-offline handling -/

/-- Scheduler.__close_server applied to a server object: requires an
active computation and Initialized status, then empties the task maps
and marks the server Closed.  It does not touch the node counter. -/
def close_server_obj (comp : Option CompSrv) (s : Server) : Server :=
  if comp = none ∨ s.status ≠ some ServerInitialized then s
  else { s with status := some ServerClosed, xfer_files := [], coros := [], done := [] }

/-- Scheduler.__close_server keyed into the fleet state. -/
def close_server_st (st : SchedState) (addr skey : String) : SchedState :=
  let f : Node → Node := fun n =>
    { n with servers := dmodify skey (close_server_obj st.cur_computation) n.servers }
  { st with nodes := dmodify addr f st.nodes }

/-- Scheduler.__close_node applied to a node object: close every server,
then reset the counter and mark the node Closed; a missing computation
makes it a no-op. -/
def close_node_obj (comp : Option CompSrv) (n : Node) : Node :=
  if comp = none then n
  else { n with servers := n.servers.map (fun p => (p.1, close_server_obj comp p.2)),
                ncoros := 0, status := some NodeClosed }

/-- Scheduler.__close_node keyed into the fleet state. -/
def close_node_st (st : SchedState) (addr : String) : SchedState :=
  { st with nodes := dmodify addr (close_node_obj st.cur_computation) st.nodes }

/-- Scheduler.__close_computation: drop the observer, close every node,
remove the staging directory of the client auth, clear the active
computation and the client auth. -/
def close_computation_st (st : SchedState) : SchedState :=
  let comp2 := st.cur_computation.map (fun c => { c with status_coro := none })
  { st with
    nodes := st.nodes.map (fun p => (p.1, close_node_obj comp2 p.2)),
    dirs := match st.cur_client_auth with
      | some a => st.dirs.filter (fun d => d ≠ authDir st.dest_path a)
      | none => st.dirs,
    cur_computation := none,
    cur_client_auth := none }

/-- Peer-offline handling in Scheduler.__status_proc: remove the server
from its node; if the node still has servers the (detached) server is
closed, otherwise the node itself is removed; an offline location that
matches no node but equals the client pulse location closes the whole
computation. -/
def peer_offline (st : SchedState) (pulseLoc : Option Location) (loc : Location) :
    SchedState :=
  match dlookup loc.addr st.nodes with
  | some node =>
    match dlookup (locKey loc) node.servers with
    | none => st
    | some _ =>
      let servers2 := derase (locKey loc) node.servers
      if servers2 ≠ [] then
        { st with nodes := dmodify loc.addr (fun n => { n with servers := servers2 }) st.nodes }
      else
        { st with nodes := derase loc.addr st.nodes }
  | none =>
    if st.cur_computation ≠ none ∧ pulseLoc = some loc then close_computation_st st
    else st

/-! ## Placement engine (Scheduler.__run and Scheduler._Node.run) -/

/-- Load of a node used for placement: float(node.ncoros) / len(node.servers),
modelled exactly on the rationals. -/
def node_load (n : Node) : ℚ := (n.ncoros : ℚ) / (n.servers.length : ℚ)

/-- The node-selection loop of Scheduler.__run: keep the first Initialized
node of strictly least load. -/
def run_select_aux : Option (Node × ℚ) → List (String × Node) → Option (Node × ℚ)
  | acc, [] => acc
  | acc, p :: rest =>
    if p.2.status = some NodeInitialized then
      match acc with
      | none => run_select_aux (some (p.2, node_load p.2)) rest
      | some hl =>
        if node_load p.2 < hl.2 then run_select_aux (some (p.2, node_load p.2)) rest
        else run_select_aux (some hl) rest
    else run_select_aux acc rest

/-- Node selection over the fleet, starting from an empty accumulator. -/
def run_select (nodes : List (String × Node)) : Option (Node × ℚ) :=
  run_select_aux none nodes

/-- The server-selection loop of Scheduler._Node.run: keep the first
Initialized server with strictly fewest active tasks. -/
def node_select_aux : Option (Server × Nat) → List (String × Server) → Option (Server × Nat)
  | acc, [] => acc
  | acc, q :: rest =>
    if q.2.status = some ServerInitialized then
      match acc with
      | none => node_select_aux (some (q.2, q.2.coros.length)) rest
      | some wl =>
        if q.2.coros.length < wl.2 then node_select_aux (some (q.2, q.2.coros.length)) rest
        else node_select_aux (some wl) rest
    else node_select_aux acc rest

/-- Immediate replies sent to a client coroutine by the RPC dispatcher. -/
inductive ClientMsg where
  | count (n : Nat)
  | emptyList
  | nullReply
deriving DecidableEq

/-- Scheduler._Node.run up to the point where a spawn is launched: a
non-Initialized node or a node without Initialized servers answers null,
otherwise the chosen server is handed the spawn. -/
def node_run (n : Node) : List ClientMsg × Option Server :=
  if n.status ≠ some NodeInitialized then ([ClientMsg.nullReply], none)
  else
    match node_select_aux none n.servers with
    | none => ([ClientMsg.nullReply], none)
    | some wl => ([], some wl.1)

/-- Scheduler.__run: pick the least-loaded Initialized node and delegate
to it; answer null when no Initialized node exists. -/
def sched_run (st : SchedState) : List ClientMsg × Option Server :=
  match run_select st.nodes with
  | none => ([ClientMsg.nullReply], none)
  | some hl => node_run hl.1

/-! ## Client RPC: the run_each dispatcher (Scheduler.__client_proc) -/

/-- A spawn launched asynchronously by the dispatcher. -/
inductive SpawnTarget where
  | onNode (addr : String)
  | onServer (addr skey : String)
deriving DecidableEq

/-- The run_each branch of Scheduler.__client_proc.  A failed auth check
clears the where argument; the literal tags node, server and node_servers
are dispatched, and any other value (in particular a host-address string)
falls through to an empty-list reply. -/
def run_each_dispatch (st : SchedState) (auth_ok : Bool) (whereArg : Option String) :
    List ClientMsg × List SpawnTarget :=
  let w := if auth_ok then whereArg else none
  if w = some "node" then
    let nodes := st.nodes.filter (fun p => p.2.status = some NodeInitialized)
    ([ClientMsg.count nodes.length], nodes.map (fun p => SpawnTarget.onNode p.1))
  else if w = some "server" then
    let servers : List (String × String) :=
      (st.nodes.filter (fun p => p.2.status = some NodeInitialized)).flatMap
        (fun p => (p.2.servers.filter (fun q => q.2.status = some ServerInitialized)).map
          (fun q => (p.1, q.1)))
    ([ClientMsg.count servers.length],
     servers.map (fun e => SpawnTarget.onServer e.1 e.2))
  else if w = some "node_servers" then
    let servers : List (String × String) :=
      match dlookup "node_servers" st.nodes with
      | some node =>
        if node.status = some NodeInitialized then
          (node.servers.filter (fun q => q.2.status = some ServerInitialized)).map
            (fun q => (node.addr, q.1))
        else []
      | none => []
    ([ClientMsg.count servers.length],
     servers.map (fun e => SpawnTarget.onServer e.1 e.2))
  else
    ([ClientMsg.emptyList], [])

/-! ## Timer processor: the zombie audit (Scheduler.__timer_proc) -/

/-- Inner server loop of the audit: servers that are Initialized and have
not pulsed for more than five pulse intervals are scheduled for close. -/
def audit_servers (now pulse : ℚ) (addr : String) :
    List (String × Server) → List (String × String)
  | [] => []
  | q :: rest =>
    if q.2.status = some ServerInitialized ∧ now - q.2.last_pulse > 5 * pulse then
      (addr, q.1) :: audit_servers now pulse addr rest
    else audit_servers now pulse addr rest

/-- Outer node loop of the audit: only Initialized nodes are visited. -/
def audit_nodes (now pulse : ℚ) : List (String × Node) → List (String × String)
  | [] => []
  | p :: rest =>
    if p.2.status = some NodeInitialized then
      audit_servers now pulse p.1 p.2.servers ++ audit_nodes now pulse rest
    else audit_nodes now pulse rest

/-- The zombie audit of Scheduler.__timer_proc: runs only when more than
five pulse intervals have passed since server_check, and returns the
(node, server) keys whose close it launches. -/
def timer_audit (now server_check pulse : ℚ) (nodes : List (String × Node)) :
    List (String × String) :=
  if now - server_check > 5 * pulse then audit_nodes now pulse nodes else []

/-! ## Computation constructor validation (Computation.__init__) -/

/-- The argument checks of the Computation constructor, in source order.
Python truthiness makes a zombie_period of zero skip the lower-bound
check entirely. -/
def computation_init_ok (pulse_interval timeout : Int) (zombie_period : Option Int) :
    Bool :=
  if pulse_interval < MinPulseInterval ∨ pulse_interval > MaxPulseInterval then false
  else if timeout < 1 ∨ timeout > MaxPulseInterval then false
  else
    match zombie_period with
    | none => true
    | some z => if z ≠ 0 ∧ z < MaxPulseInterval then false else true

/-! ## HTTP observer: the set_poll_sec POST handler (httpd.py) -/

/-- The set_poll_sec branch of do_POST, reduced to the stored value.
The argument timeoutVal is the outcome of the Python int() builtin on the
form value: none when parsing raises.  A parsable timeout below one is
clamped to zero, and a parse failure also stores zero (the handler logs a
warning but still assigns). -/
def set_poll_sec (_poll_sec : Int) (timeoutVal : Option Int) : Int :=
  match timeoutVal with
  | some t => if t < 1 then 0 else t
  | none => 0

/-! ## Client-side Computation.schedule -/

/-- Messages the client sends while scheduling (to the scheduler, plus
the quit message to its own pulse coroutine). -/
inductive SchedMsg where
  | scheduleReq
  | awaitReq
  | closeComp
  | quitPulse
  | fileXfer (name : String)
deriving DecidableEq

/-- Result of Computation.schedule: an integer or the Python value None. -/
inductive SchedRes where
  | rInt (i : Int)
  | rNone
deriving DecidableEq

/-- Client-side state of a Computation relevant to scheduling. -/
structure CompCl where
  auth : Option String
  scheduler : Option Unit
  pulse_coro : Option Unit
  xfer_files : List String
deriving DecidableEq

/-- Environment supplying the outcomes of the transport interactions of
Computation.schedule. -/
structure ScheduleEnv where
  locate_result : Option Unit
  deliver_schedule : Int
  auth_reply : Option String
  remote : Bool
  file_send_results : List Int
  deliver_await : Int
  resps : List Bool
deriving DecidableEq

/-- Computation.close: if an auth is held, request close_computation and
drop the auth; if a pulse coroutine exists, tell it to quit. -/
def comp_close (c : CompCl) : CompCl × List SchedMsg :=
  (if c.auth.isSome then { c with auth := none } else c,
   (if c.auth.isSome then [SchedMsg.closeComp] else []) ++
   (if c.pulse_coro.isSome then [SchedMsg.quitPulse] else []))

/-- File-transfer loop of Computation.schedule: send each file, aborting
at the first negative result; missing environment entries succeed. -/
def send_files : List String → List Int → List SchedMsg × Bool
  | [], _ => ([], true)
  | f :: fs, [] =>
    let rest := send_files fs []
    (SchedMsg.fileXfer f :: rest.1, rest.2)
  | f :: fs, r :: rs =>
    if r < 0 then ([SchedMsg.fileXfer f], false)
    else
      let rest := send_files fs rs
      (SchedMsg.fileXfer f :: rest.1, rest.2)

/-- The wait loop at the end of Computation.schedule: skip messages until
the scheduled confirmation arrives; none means it never does. -/
def await_resp : List Bool → Option Unit
  | [] => none
  | b :: rest => if b then some () else await_resp rest

/-- Computation.schedule.  A computation that already holds an auth token
returns -1 immediately; otherwise the scheduler is located, the schedule
request delivered, the auth received, files transferred when remote, the
await request delivered, and the scheduled confirmation received.  Every
failure runs close and surfaces -1 (or None for an undelivered schedule
request).  The outer option is none when the final wait never returns. -/
def comp_schedule (c : CompCl) (env : ScheduleEnv) :
    Option SchedRes × List SchedMsg × CompCl :=
  if c.auth.isSome then (some (SchedRes.rInt (-1)), [], c)
  else
    match (if c.scheduler.isSome then some () else env.locate_result) with
    | none => (some (SchedRes.rInt (-1)), [], c)
    | some u =>
      let c1 : CompCl := { c with scheduler := some u, pulse_coro := some () }
      if env.deliver_schedule ≠ 1 then
        let cl := comp_close c1
        (some SchedRes.rNone, SchedMsg.scheduleReq :: cl.2, cl.1)
      else
        match env.auth_reply with
        | none =>
          let cl := comp_close c1
          (some (SchedRes.rInt (-1)), SchedMsg.scheduleReq :: cl.2, cl.1)
        | some a =>
          let c2 : CompCl := { c1 with auth := some a }
          let xfer := if env.remote then send_files c2.xfer_files env.file_send_results
                      else ([], true)
          if xfer.2 = false then
            let cl := comp_close c2
            (some (SchedRes.rInt (-1)), SchedMsg.scheduleReq :: xfer.1 ++ cl.2, cl.1)
          else if env.deliver_await ≠ 1 then
            let cl := comp_close c2
            (some (SchedRes.rInt (-1)),
             SchedMsg.scheduleReq :: xfer.1 ++ [SchedMsg.awaitReq] ++ cl.2, cl.1)
          else
            match await_resp env.resps with
            | some _ =>
              (some (SchedRes.rInt 0),
               SchedMsg.scheduleReq :: xfer.1 ++ [SchedMsg.awaitReq], c2)
            | none =>
              (none, SchedMsg.scheduleReq :: xfer.1 ++ [SchedMsg.awaitReq], c2)

/-! ## Concrete fleet states used to evaluate the theorems -/

/-- A server of the given address, port, status and active tasks. -/
def mkServer (a : String) (p : Nat) (stat : Option Nat) (cs : List (String × Rcoro)) :
    Server :=
  { name := "srv", location := ⟨a, p⟩, coros := cs, done := [], status := stat,
    coro := some (), xfer_files := [], last_pulse := 0 }

def compW : CompSrv := { auth := "srvauth", status_coro := some () }

def rcW1 : Rcoro := { location := ⟨"10.0.0.1", 9001⟩, rid := "coro1" }

def srvW1 : Server := mkServer "10.0.0.1" 9001 (some ServerInitialized) [("coro1", rcW1)]

def nodeW1 : Node :=
  { addr := "10.0.0.1", servers := [("10.0.0.1:9001", srvW1)], ncoros := 1,
    status := some NodeInitialized }

/-- One Initialized node whose single Initialized server runs one task;
the fleet invariant holds here. -/
def stW1 : SchedState :=
  { nodes := [("10.0.0.1", nodeW1)], cur_computation := some compW,
    cur_client_auth := some "clientauth", dest_path := "/tmp/discoro/scheduler",
    dirs := [authDir "/tmp/discoro/scheduler" "clientauth"] }

def rcW2 : Rcoro := { location := ⟨"10.0.0.9", 9001⟩, rid := "rc9" }

def msgW2 : MonitorException := { rcoro := rcW2, info := "terminated" }

def srvW2 : Server := mkServer "10.0.0.9" 9001 (some ServerInitialized) []

def nodeW2 : Node :=
  { addr := "10.0.0.9", servers := [("10.0.0.9:9001", srvW2)], ncoros := 0,
    status := some NodeInitialized }

/-- A state in which no spawn of task rc9 has been acknowledged yet. -/
def stW2 : SchedState :=
  { nodes := [("10.0.0.9", nodeW2)], cur_computation := some compW,
    cur_client_auth := some "clientauth", dest_path := "/tmp/discoro/scheduler",
    dirs := [] }

def rcW3 : Rcoro := { location := ⟨"10.0.0.7", 9001⟩, rid := "rc7" }

def srvW3 : Server := mkServer "10.0.0.7" 9001 (some ServerDiscovered) []

def nodeW3 : Node :=
  { addr := "10.0.0.7", servers := [("10.0.0.7:9001", srvW3)], ncoros := 0,
    status := some NodeDiscovered }

/-- A state whose only server is Discovered, not Initialized. -/
def stW3 : SchedState :=
  { nodes := [("10.0.0.7", nodeW3)], cur_computation := some compW,
    cur_client_auth := some "clientauth", dest_path := "/tmp/discoro/scheduler",
    dirs := [] }

def srvW5a : Server := mkServer "10.0.0.5" 9001 (some ServerInitialized) []

def srvW5b : Server := mkServer "10.0.0.5" 9002 (some ServerInitialized) []

def nodeW5 : Node :=
  { addr := "10.0.0.5", servers := [("10.0.0.5:9001", srvW5a), ("10.0.0.5:9002", srvW5b)],
    ncoros := 0, status := some NodeInitialized }

/-- A known Initialized node with two Initialized servers, addressed by
its host string. -/
def stW5 : SchedState :=
  { nodes := [("10.0.0.5", nodeW5)], cur_computation := some compW,
    cur_client_auth := some "clientauth", dest_path := "/tmp/discoro/scheduler",
    dirs := [] }

def rcW6 : Rcoro := { location := ⟨"10.0.0.22", 9001⟩, rid := "rc22" }

def srvW6a : Server := mkServer "10.0.0.21" 9001 (some ServerInitialized) []

def srvW6b : Server := mkServer "10.0.0.22" 9001 (some ServerInitialized) [("rc22", rcW6)]

def srvW6c : Server := mkServer "10.0.0.22" 9002 (some ServerInitialized) []

def nodeW6a : Node :=
  { addr := "10.0.0.21", servers := [("10.0.0.21:9001", srvW6a)], ncoros := 2,
    status := some NodeInitialized }

def nodeW6b : Node :=
  { addr := "10.0.0.22", servers := [("10.0.0.22:9001", srvW6b), ("10.0.0.22:9002", srvW6c)],
    ncoros := 1, status := some NodeInitialized }

/-- Two Initialized nodes with loads 2 and 1/2: placement must pick the
second, and within it the idle server. -/
def stW6 : SchedState :=
  { nodes := [("10.0.0.21", nodeW6a), ("10.0.0.22", nodeW6b)],
    cur_computation := some compW, cur_client_auth := some "clientauth",
    dest_path := "/tmp/discoro/scheduler", dirs := [] }

def srvW9 : Server := mkServer "10.0.0.3" 9001 (some ServerInitialized) []

def nodeW9 : Node :=
  { addr := "10.0.0.3", servers := [("10.0.0.3:9001", srvW9)], ncoros := 0,
    status := some NodeInitialized }

/-- A fleet whose only server last pulsed at time 0. -/
def nodesW9 : List (String × Node) := [("10.0.0.3", nodeW9)]

def compClW : CompCl :=
  { auth := some "clienttoken", scheduler := some (), pulse_coro := some (),
    xfer_files := ["f.txt"] }

def envW : ScheduleEnv :=
  { locate_result := some (), deliver_schedule := 1, auth_reply := some "tok2",
    remote := true, file_send_results := [0], deliver_await := 1, resps := [true] }

/-! ## Dictionary lemmas -/

theorem dlookup_mem {α : Type} {k : String} {m : List (String × α)} {v : α}
    (h : dlookup k m = some v) : (k, v) ∈ m := by
  induction m with
  | nil => simp [dlookup] at h
  | cons p rest ih =>
    by_cases hk : p.1 = k
    · simp [dlookup, hk] at h
      subst h
      cases p with
      | mk a b =>
        simp only at hk
        subst hk
        exact List.mem_cons_self _ _
    · simp [dlookup, hk] at h
      exact List.mem_cons_of_mem _ (ih h)

theorem dlookup_dinsert_self {α : Type} (k : String) (v : α) (m : List (String × α)) :
    dlookup k (dinsert k v m) = some v := by
  induction m with
  | nil => simp [dinsert, dlookup]
  | cons p rest ih =>
    by_cases hk : p.1 = k
    · simp [dinsert, hk, dlookup]
    · simp [dinsert, hk, dlookup, ih]

theorem dlookup_dmodify_self {α : Type} {k : String} {m : List (String × α)} {v : α}
    (f : α → α) (h : dlookup k m = some v) :
    dlookup k (dmodify k f m) = some (f v) := by
  induction m with
  | nil => simp [dlookup] at h
  | cons p rest ih =>
    by_cases hk : p.1 = k
    · simp [dlookup, hk] at h
      simp [dmodify, hk, dlookup, h]
    · simp [dlookup, hk] at h
      simp [dmodify, hk, dlookup, ih h]

theorem length_dinsert_of_not_mem {α : Type} {k : String} {m : List (String × α)} (v : α)
    (h : dlookup k m = none) : (dinsert k v m).length = m.length + 1 := by
  induction m with
  | nil => simp [dinsert]
  | cons p rest ih =>
    by_cases hk : p.1 = k
    · simp [dlookup, hk] at h
    · simp [dlookup, hk] at h
      simp [dinsert, hk, ih h]

theorem length_derase_of_mem {α : Type} {k : String} {m : List (String × α)} {v : α}
    (h : dlookup k m = some v) : (derase k m).length + 1 = m.length := by
  induction m with
  | nil => simp [dlookup] at h
  | cons p rest ih =>
    by_cases hk : p.1 = k
    · simp [derase, hk]
    · simp [dlookup, hk] at h
      simp [derase, hk, ih h]

theorem mem_dmodify {α : Type} {k : String} {f : α → α} {m : List (String × α)}
    {q : String × α} (h : q ∈ dmodify k f m) :
    q ∈ m ∨ ∃ v, dlookup k m = some v ∧ q = (k, f v) := by
  induction m with
  | nil => simp [dmodify] at h
  | cons p rest ih =>
    by_cases hk : p.1 = k
    · simp [dmodify, hk] at h
      rcases h with h | h
      · right
        exact ⟨p.2, by simp [dlookup, hk], by simp [h, hk]⟩
      · left
        exact List.mem_cons_of_mem _ h
    · simp [dmodify, hk] at h
      rcases h with h | h
      · left
        simp [h]
      · rcases ih h with h2 | ⟨v, hv, hq⟩
        · left
          exact List.mem_cons_of_mem _ h2
        · right
          exact ⟨v, by simp [dlookup, hk, hv], hq⟩

theorem mem_derase {α : Type} {k : String} {m : List (String × α)}
    {q : String × α} (h : q ∈ derase k m) : q ∈ m := by
  induction m with
  | nil => simp [derase] at h
  | cons p rest ih =>
    by_cases hk : p.1 = k
    · simp [derase, hk] at h
      exact List.mem_cons_of_mem _ h
    · simp [derase, hk] at h
      rcases h with h | h
      · simp [h]
      · exact List.mem_cons_of_mem _ (ih h)

theorem initLoad_dmodify {k : String} {m : List (String × Server)} {s : Server}
    (f : Server → Server) (h : dlookup k m = some s) :
    initLoad (dmodify k f m) = initLoad m + (svLoad (f s) - svLoad s) := by
  induction m with
  | nil => simp [dlookup] at h
  | cons p rest ih =>
    by_cases hk : p.1 = k
    · simp [dlookup, hk] at h
      subst h
      simp [dmodify, hk, initLoad]
      ring
    · simp [dlookup, hk] at h
      simp [dmodify, hk, initLoad, ih h]
      ring

theorem initLoad_derase {k : String} {m : List (String × Server)} {s : Server}
    (h : dlookup k m = some s) :
    initLoad (derase k m) = initLoad m - svLoad s := by
  induction m with
  | nil => simp [dlookup] at h
  | cons p rest ih =>
    by_cases hk : p.1 = k
    · simp [dlookup, hk] at h
      subst h
      simp [derase, hk, initLoad]
    · simp [dlookup, hk] at h
      simp [derase, hk, initLoad, ih h]
      ring

theorem dmodify_of_lookup_none {α : Type} {k : String} {m : List (String × α)}
    (f : α → α) (h : dlookup k m = none) : dmodify k f m = m := by
  induction m with
  | nil => rfl
  | cons p rest ih =>
    by_cases hk : p.1 = k
    · simp [dlookup, hk] at h
    · simp [dlookup, hk] at h
      simp [dmodify, hk, ih h]

theorem init_ok_rejects_nonzero (pint tout z : Int) (hz : z ≠ 0)
    (hlt : z < MaxPulseInterval) :
    computation_init_ok pint tout (some z) = false := by
  unfold computation_init_ok
  by_cases h1 : pint < MinPulseInterval ∨ pint > MaxPulseInterval
  · rw [if_pos h1]
  · rw [if_neg h1]
    by_cases h2 : tout < 1 ∨ tout > MaxPulseInterval
    · rw [if_pos h2]
    · rw [if_neg h2]
      show (if z ≠ 0 ∧ z < MaxPulseInterval then false else true) = false
      rw [if_pos ⟨hz, hlt⟩]

/-! ## Claim C4: Computation constructor and zombie_period -/

/-- C4 counterexample: the constructor accepts zombie_period = 0, which
is non-null and smaller than MaxPulseInterval, because the Python
truthiness test skips the lower-bound check for zero. -/
theorem c4_counterexample :
    computation_init_ok MinPulseInterval MsgTimeout (some 0) = true ∧
    (some (0 : Int)).isSome ∧ (0 : Int) < MaxPulseInterval := by decide

/-- C4 amended: the constructor rejects every nonzero non-null
zombie_period below MaxPulseInterval, and after a successful construction
zombie_period is null, zero, or at least MaxPulseInterval. -/
theorem c4_zombie_period_validation :
    (∀ pint tout z, z ≠ 0 → z < MaxPulseInterval →
      computation_init_ok pint tout (some z) = false) ∧
    (∀ pint tout zp, computation_init_ok pint tout zp = true →
      zp = none ∨ zp = some 0 ∨ ∃ z, zp = some z ∧ MaxPulseInterval ≤ z) := by
  constructor
  · exact init_ok_rejects_nonzero
  · intro pint tout zp h
    match zp with
    | none => exact Or.inl rfl
    | some z =>
      by_cases hz : z = 0
      · exact Or.inr (Or.inl (by rw [hz]))
      · refine Or.inr (Or.inr ⟨z, rfl, ?_⟩)
        by_contra hge
        push_neg at hge
        rw [init_ok_rejects_nonzero pint tout z hz hge] at h
        exact Bool.noConfusion h

/-- C4 witness: zombie_period = 50 (nonzero, below 100) is rejected. -/
theorem c4_zombie_period_validation_witness :
    computation_init_ok 10 10 (some 50) = false :=
  c4_zombie_period_validation.1 10 10 50 (by decide) (by decide)

/-! ## Claim C7: the HTTP set_poll_sec handler -/

/-- C7 counterexample: a non-numeric timeout value (int() raises, modelled
as none) is not ignored; the handler stores 0, changing a previously
stored interval of 10. -/
theorem c7_counterexample :
    set_poll_sec 10 none = 0 ∧ set_poll_sec 10 none ≠ 10 := by decide

/-- C7 amended: a non-numeric timeout stores 0 (the warning notwithstanding),
and a numeric timeout below 1 also stores 0. -/
theorem c7_set_poll_sec :
    (∀ cur, set_poll_sec cur none = 0) ∧
    (∀ cur t, t < 1 → set_poll_sec cur (some t) = 0) := by
  constructor
  · intro cur
    rfl
  · intro cur t hlt
    unfold set_poll_sec
    simp [hlt]

/-- C7 witness: a numeric timeout of 0 is stored as 0. -/
theorem c7_set_poll_sec_witness :
    set_poll_sec 5 (some 0) = 0 :=
  c7_set_poll_sec.2 5 0 (by decide)

/-! ## Claim C10: re-scheduling an already scheduled Computation -/

/-- C10: if the computation already holds an auth token, schedule returns
-1 at once, sends nothing, and leaves the computation unchanged. -/
theorem c10_schedule_reentry (c : CompCl) (env : ScheduleEnv) (a : String)
    (h : c.auth = some a) :
    comp_schedule c env = (some (SchedRes.rInt (-1)), [], c) := by
  unfold comp_schedule
  rw [h]
  rfl

/-- C10 witness: a computation holding a token is refused with -1 under
an environment in which every transport step would succeed. -/
theorem c10_schedule_reentry_witness :
    comp_schedule compClW envW = (some (SchedRes.rInt (-1)), [], compClW) :=
  c10_schedule_reentry compClW envW "clienttoken" rfl

/-! ## Claim C5: run_each with a host-address string -/

/-- C5: the dispatcher sends the empty list (and spawns nothing) for a
run_each naming an Initialized node with two Initialized servers by its
host address, instead of replying with the count 2 and two spawns; the
node_servers arm compares the where argument against the literal tag. -/
theorem c5_run_each_host_string :
    run_each_dispatch stW5 true (some "10.0.0.5") = ([ClientMsg.emptyList], []) ∧
    dlookup "10.0.0.5" stW5.nodes = some nodeW5 ∧
    nodeW5.status = some NodeInitialized ∧
    (nodeW5.servers.filter (fun q => q.2.status = some ServerInitialized)).length = 2 := by
  decide

/-! ## Claim C3: spawn on a server that is not Initialized -/

/-- C3 counterexample: running on a Discovered server delivers no message
at all to the client, rather than the null reply the claim requires. -/
theorem c3_counterexample :
    srvW3.status ≠ some ServerInitialized ∧
    (run_on_server stW3 "10.0.0.7" "10.0.0.7:9001" (some rcW3)).2 = [] ∧
    (run_on_server stW3 "10.0.0.7" "10.0.0.7:9001" (some rcW3)).2 ≠
      [RunReply.nullReply] := by decide

/-- C3 amended: invoking run on a server whose status is not Initialized
returns without sending anything to the client (the caller observes a
null return value, the client gets no reply) and changes no state. -/
theorem c3_run_not_initialized (st : SchedState) (addr skey : String)
    (reply : Option Rcoro) (node : Node) (server : Server)
    (hn : dlookup addr st.nodes = some node)
    (hs : dlookup skey node.servers = some server)
    (hst : server.status ≠ some ServerInitialized) :
    run_on_server st addr skey reply = (st, []) := by
  simp [run_on_server, hn, hs, hst]

/-- C3 witness: the amended statement at the Discovered server. -/
theorem c3_run_not_initialized_witness :
    run_on_server stW3 "10.0.0.7" "10.0.0.7:9001" (some rcW3) = (stW3, []) :=
  c3_run_not_initialized stW3 "10.0.0.7" "10.0.0.7:9001" (some rcW3) nodeW3 srvW3
    (by decide) (by decide) (by decide)

theorem run_on_server_eq (st : SchedState) (addr skey : String) (r : Rcoro)
    (node : Node) (server : Server)
    (hn : dlookup addr st.nodes = some node)
    (hs : dlookup skey node.servers = some server)
    (hinit : server.status = some ServerInitialized)
    (hcomp : st.cur_computation ≠ none) :
    run_on_server st addr skey (some r) =
      ({ st with nodes := dmodify addr (fun n =>
          { n with ncoros := n.ncoros + (server_spawn_ack server r).2.1,
                   servers := dmodify skey (fun _ => (server_spawn_ack server r).1)
                     n.servers }) st.nodes },
       [(server_spawn_ack server r).2.2]) := by
  simp [run_on_server, hn, hs, hinit, hcomp]

/-! ## Claim C2: termination racing ahead of spawn acknowledgment -/

/-- C2: if the termination of task T is processed before the spawn
acknowledgment of T, the termination is buffered in done under the task
id, the spawn acknowledgment then answers the buffered termination to the
client instead of the handle, coros does not contain T afterwards, and
the node counter is unchanged. -/
theorem c2_termination_spawn_race (st : SchedState) (msg : MonitorException) (r : Rcoro)
    (node : Node) (server : Server) (comp : CompSrv)
    (hn : dlookup msg.rcoro.location.addr st.nodes = some node)
    (hs : dlookup (locKey msg.rcoro.location) node.servers = some server)
    (hfresh : dlookup msg.rcoro.rid server.coros = none)
    (hinit : server.status = some ServerInitialized)
    (hcomp : st.cur_computation = some comp)
    (hr : r.rid = msg.rcoro.rid) :
    (∃ node1 server1,
      dlookup msg.rcoro.location.addr (status_monitor st msg).nodes = some node1 ∧
      dlookup (locKey msg.rcoro.location) node1.servers = some server1 ∧
      dlookup msg.rcoro.rid server1.done = some msg ∧
      node1.ncoros = node.ncoros) ∧
    (run_on_server (status_monitor st msg) msg.rcoro.location.addr
      (locKey msg.rcoro.location) (some r)).2 = [RunReply.term msg] ∧
    (∃ node2 server2,
      dlookup msg.rcoro.location.addr
        (run_on_server (status_monitor st msg) msg.rcoro.location.addr
          (locKey msg.rcoro.location) (some r)).1.nodes = some node2 ∧
      dlookup (locKey msg.rcoro.location) node2.servers = some server2 ∧
      dlookup msg.rcoro.rid server2.coros = none ∧
      node2.ncoros = node.ncoros) := by
  have hsm : status_monitor st msg =
      { st with nodes := dmodify msg.rcoro.location.addr (fun n =>
          { n with servers := dmodify (locKey msg.rcoro.location) (fun s =>
              { s with done := dinsert msg.rcoro.rid msg s.done }) n.servers }) st.nodes } := by
    simp only [status_monitor, hn, hs, hfresh]
  have hlook1 : dlookup msg.rcoro.location.addr (status_monitor st msg).nodes =
      some { node with servers := dmodify (locKey msg.rcoro.location) (fun s =>
        { s with done := dinsert msg.rcoro.rid msg s.done }) node.servers } := by
    rw [hsm]
    exact dlookup_dmodify_self _ hn
  have hlook2 : dlookup (locKey msg.rcoro.location)
      (dmodify (locKey msg.rcoro.location) (fun s =>
        { s with done := dinsert msg.rcoro.rid msg s.done }) node.servers) =
      some { server with done := dinsert msg.rcoro.rid msg server.done } :=
    dlookup_dmodify_self _ hs
  have hdone1 : dlookup msg.rcoro.rid (dinsert msg.rcoro.rid msg server.done) = some msg :=
    dlookup_dinsert_self _ _ _
  have hcomp1 : (status_monitor st msg).cur_computation = some comp := by
    rw [hsm]
    exact hcomp
  have hack : server_spawn_ack
      { server with done := dinsert msg.rcoro.rid msg server.done } r =
      ({ server with done := derase msg.rcoro.rid (dinsert msg.rcoro.rid msg server.done) },
       0, RunReply.term msg) := by
    simp only [server_spawn_ack, hr, hdone1]
  have hrun := run_on_server_eq (status_monitor st msg) msg.rcoro.location.addr
    (locKey msg.rcoro.location) r _ _ hlook1 hlook2 hinit (by rw [hcomp1]; exact fun h => Option.noConfusion h)
  rw [hack] at hrun
  refine ⟨⟨_, _, hlook1, hlook2, hdone1, rfl⟩, ?_, ?_⟩
  · rw [hrun]
  · rw [hrun]
    refine ⟨_, _, dlookup_dmodify_self _ hlook1, dlookup_dmodify_self _ hlook2, hfresh, ?_⟩
    simp

/-- C2 witness: the race at a concrete server with an empty task map. -/
theorem c2_termination_spawn_race_witness :
    (run_on_server (status_monitor stW2 msgW2) "10.0.0.9" "10.0.0.9:9001"
      (some rcW2)).2 = [RunReply.term msgW2] :=
  (c2_termination_spawn_race stW2 msgW2 rcW2 nodeW2 srvW2 compW
    rfl rfl rfl rfl rfl rfl).2.1

/-! ## Claim C8: close_computation postcondition -/

/-- C8: from any state with an active computation, close_computation
clears the active computation and the client auth, removes the per-auth
staging directory, and leaves every node Closed with a zero counter. -/
theorem c8_close_computation (st : SchedState) (c : CompSrv)
    (hc : st.cur_computation = some c) :
    (close_computation_st st).cur_computation = none ∧
    (close_computation_st st).cur_client_auth = none ∧
    (∀ a, st.cur_client_auth = some a →
      authDir st.dest_path a ∉ (close_computation_st st).dirs) ∧
    (∀ p ∈ (close_computation_st st).nodes,
      p.2.status = some NodeClosed ∧ p.2.ncoros = 0) := by
  refine ⟨rfl, rfl, ?_, ?_⟩
  · intro a ha hmem
    simp only [close_computation_st, ha] at hmem
    simp [List.mem_filter] at hmem
  · intro p hp
    simp only [close_computation_st] at hp
    rcases List.mem_map.1 hp with ⟨q, hq, rfl⟩
    simp [close_node_obj, hc]

/-- C8 witness: closing the concrete one-node state empties the active
computation and removes the staging directory of the client auth. -/
theorem c8_close_computation_witness :
    (close_computation_st stW1).cur_computation = none ∧
    authDir stW1.dest_path "clientauth" ∉ (close_computation_st stW1).dirs :=
  ⟨(c8_close_computation stW1 compW rfl).1,
   (c8_close_computation stW1 compW rfl).2.2.1 "clientauth" rfl⟩

/-! ## Claim C9: the zombie audit closes exactly the stale servers -/

theorem mem_audit_servers_of (now pulse : ℚ) (addr : String)
    (servers : List (String × Server)) {q : String × Server} (hq : q ∈ servers)
    (hstat : q.2.status = some ServerInitialized)
    (hage : now - q.2.last_pulse > 5 * pulse) :
    (addr, q.1) ∈ audit_servers now pulse addr servers := by
  induction servers with
  | nil => simp at hq
  | cons x rest ih =>
    rcases List.mem_cons.1 hq with h | h
    · subst h
      simp only [audit_servers]
      rw [if_pos ⟨hstat, hage⟩]
      exact List.mem_cons_self _ _
    · simp only [audit_servers]
      split_ifs with hx
      · exact List.mem_cons_of_mem _ (ih h)
      · exact ih h

theorem of_mem_audit_servers (now pulse : ℚ) (addr : String)
    (servers : List (String × Server)) {e : String × String}
    (he : e ∈ audit_servers now pulse addr servers) :
    ∃ q ∈ servers, e = (addr, q.1) ∧ q.2.status = some ServerInitialized ∧
      now - q.2.last_pulse > 5 * pulse := by
  induction servers with
  | nil => simp [audit_servers] at he
  | cons x rest ih =>
    simp only [audit_servers] at he
    split_ifs at he with hx
    · rcases List.mem_cons.1 he with h | h
      · exact ⟨x, List.mem_cons_self _ _, h, hx.1, hx.2⟩
      · rcases ih h with ⟨q, hq, he2⟩
        exact ⟨q, List.mem_cons_of_mem _ hq, he2⟩
    · rcases ih he with ⟨q, hq, he2⟩
      exact ⟨q, List.mem_cons_of_mem _ hq, he2⟩

theorem mem_audit_nodes_of (now pulse : ℚ) (nodes : List (String × Node))
    {p : String × Node} (hp : p ∈ nodes) (hstat : p.2.status = some NodeInitialized)
    {x : String × String} (hx : x ∈ audit_servers now pulse p.1 p.2.servers) :
    x ∈ audit_nodes now pulse nodes := by
  induction nodes with
  | nil => simp at hp
  | cons y rest ih =>
    rcases List.mem_cons.1 hp with h | h
    · subst h
      simp only [audit_nodes]
      rw [if_pos hstat]
      exact List.mem_append_left _ hx
    · simp only [audit_nodes]
      split_ifs with hy
      · exact List.mem_append_right _ (ih h)
      · exact ih h

theorem of_mem_audit_nodes (now pulse : ℚ) (nodes : List (String × Node))
    {e : String × String} (he : e ∈ audit_nodes now pulse nodes) :
    ∃ p ∈ nodes, p.2.status = some NodeInitialized ∧
      e ∈ audit_servers now pulse p.1 p.2.servers := by
  induction nodes with
  | nil => simp [audit_nodes] at he
  | cons y rest ih =>
    simp only [audit_nodes] at he
    split_ifs at he with hy
    · rcases List.mem_append.1 he with h | h
      · exact ⟨y, List.mem_cons_self _ _, hy, h⟩
      · rcases ih h with ⟨p, hp, hpe⟩
        exact ⟨p, List.mem_cons_of_mem _ hp, hpe⟩
    · rcases ih he with ⟨p, hp, hpe⟩
      exact ⟨p, List.mem_cons_of_mem _ hp, hpe⟩

/-- C9: when the audit fires (more than five pulse intervals after
server_check) and, as in every reachable state, Initialized servers only
live on Initialized nodes, the audit launches a close for exactly the
Initialized servers whose last pulse is more than five pulse intervals
old; none is skipped. -/
theorem c9_zombie_audit (now server_check pulse : ℚ) (nodes : List (String × Node))
    (hg : now - server_check > 5 * pulse)
    (hsn : ∀ p ∈ nodes, ∀ q ∈ p.2.servers, q.2.status = some ServerInitialized →
      p.2.status = some NodeInitialized) :
    (∀ p ∈ nodes, ∀ q ∈ p.2.servers,
      q.2.status = some ServerInitialized → now - q.2.last_pulse > 5 * pulse →
      (p.1, q.1) ∈ timer_audit now server_check pulse nodes) ∧
    (∀ e ∈ timer_audit now server_check pulse nodes,
      ∃ p ∈ nodes, ∃ q ∈ p.2.servers, e = (p.1, q.1) ∧
        q.2.status = some ServerInitialized ∧ now - q.2.last_pulse > 5 * pulse) := by
  unfold timer_audit
  rw [if_pos hg]
  constructor
  · intro p hp q hq hqs hage
    exact mem_audit_nodes_of now pulse nodes hp (hsn p hp q hq hqs)
      (mem_audit_servers_of now pulse p.1 p.2.servers hq hqs hage)
  · intro e he
    rcases of_mem_audit_nodes now pulse nodes he with ⟨p, hp, hpn, hes⟩
    rcases of_mem_audit_servers now pulse p.1 p.2.servers hes with ⟨q, hq, he2, hq1, hq2⟩
    exact ⟨p, hp, q, hq, he2, hq1, hq2⟩

/-- C9 witness: at time 100 with pulse interval 10, the server silent
since time 0 is closed by the audit. -/
theorem c9_zombie_audit_witness :
    ("10.0.0.3", "10.0.0.3:9001") ∈ timer_audit 100 0 10 nodesW9 :=
  (c9_zombie_audit 100 0 10 nodesW9 (by norm_num) (by decide)).1
    ("10.0.0.3", nodeW9) (by decide) ("10.0.0.3:9001", srvW9) (by decide) (by decide)
    (by norm_num [nodesW9, nodeW9, srvW9, mkServer])

/-! ## Claim C6: two-level least-loaded placement -/

theorem run_select_aux_of_no_init (l : List (String × Node)) (acc : Option (Node × ℚ))
    (h : ∀ p ∈ l, p.2.status ≠ some NodeInitialized) :
    run_select_aux acc l = acc := by
  induction l generalizing acc with
  | nil => rfl
  | cons p rest ih =>
    have hp := h p (List.mem_cons_self _ _)
    simp only [run_select_aux]
    rw [if_neg hp]
    exact ih acc (fun q hq => h q (List.mem_cons_of_mem _ hq))

theorem run_select_aux_spec (l : List (String × Node)) :
    ∀ (acc : Option (Node × ℚ)) (h : Node) (lh : ℚ),
    (∀ x, acc = some x → x.1.status = some NodeInitialized ∧ x.2 = node_load x.1) →
    run_select_aux acc l = some (h, lh) →
    (h.status = some NodeInitialized ∧ lh = node_load h) ∧
    (∀ x, acc = some x → lh ≤ x.2) ∧
    (∀ p ∈ l, p.2.status = some NodeInitialized → lh ≤ node_load p.2) ∧
    ((∃ x, acc = some x ∧ h = x.1) ∨ ∃ k, (k, h) ∈ l) := by
  induction l with
  | nil =>
    intro acc h lh hwf hrun
    simp only [run_select_aux] at hrun
    refine ⟨hwf _ hrun, ?_, ?_, Or.inl ⟨(h, lh), hrun, rfl⟩⟩
    · intro x hx
      rw [hrun] at hx
      cases hx
      exact le_rfl
    · intro q hq
      simp at hq
  | cons p rest ih =>
    intro acc h lh hwf hrun
    match acc with
    | none =>
      by_cases hp : p.2.status = some NodeInitialized
      · have hrun2 : run_select_aux (some (p.2, node_load p.2)) rest = some (h, lh) := by
          simpa [run_select_aux, hp] using hrun
        obtain ⟨hwf2, hacc2, hrest2, hprov2⟩ :=
          ih (some (p.2, node_load p.2)) h lh
            (by intro x hx; cases hx; exact ⟨hp, rfl⟩) hrun2
        refine ⟨hwf2, ?_, ?_, ?_⟩
        · intro x hx
          cases hx
        · intro q hq hqi
          rcases List.mem_cons.1 hq with h2 | h2
          · subst h2
            exact hacc2 (q.2, node_load q.2) rfl
          · exact hrest2 q h2 hqi
        · rcases hprov2 with ⟨x, hx, h2⟩ | ⟨k, hk⟩
          · cases hx
            exact Or.inr ⟨p.1, by rw [h2]; exact List.mem_cons_self _ _⟩
          · exact Or.inr ⟨k, List.mem_cons_of_mem _ hk⟩
      · have hrun2 : run_select_aux (none : Option (Node × ℚ)) rest = some (h, lh) := by
          simpa [run_select_aux, hp] using hrun
        obtain ⟨hwf2, _, hrest2, hprov2⟩ :=
          ih none h lh (by intro x hx; cases hx) hrun2
        refine ⟨hwf2, ?_, ?_, ?_⟩
        · intro x hx
          cases hx
        · intro q hq hqi
          rcases List.mem_cons.1 hq with h2 | h2
          · subst h2
            exact absurd hqi hp
          · exact hrest2 q h2 hqi
        · rcases hprov2 with ⟨x, hx, h2⟩ | ⟨k, hk⟩
          · cases hx
          · exact Or.inr ⟨k, List.mem_cons_of_mem _ hk⟩
    | some a =>
      by_cases hp : p.2.status = some NodeInitialized
      · by_cases hlt : node_load p.2 < a.2
        · have hrun2 : run_select_aux (some (p.2, node_load p.2)) rest = some (h, lh) := by
            simpa [run_select_aux, hp, hlt] using hrun
          obtain ⟨hwf2, hacc2, hrest2, hprov2⟩ :=
            ih (some (p.2, node_load p.2)) h lh
              (by intro x hx; cases hx; exact ⟨hp, rfl⟩) hrun2
          have hlp : lh ≤ node_load p.2 := hacc2 (p.2, node_load p.2) rfl
          refine ⟨hwf2, ?_, ?_, ?_⟩
          · intro x hx
            cases hx
            exact le_trans hlp (le_of_lt hlt)
          · intro q hq hqi
            rcases List.mem_cons.1 hq with h2 | h2
            · subst h2
              exact hlp
            · exact hrest2 q h2 hqi
          · rcases hprov2 with ⟨x, hx, h2⟩ | ⟨k, hk⟩
            · cases hx
              exact Or.inr ⟨p.1, by rw [h2]; exact List.mem_cons_self _ _⟩
            · exact Or.inr ⟨k, List.mem_cons_of_mem _ hk⟩
        · have hrun2 : run_select_aux (some a) rest = some (h, lh) := by
            simpa [run_select_aux, hp, hlt] using hrun
          obtain ⟨hwf2, hacc2, hrest2, hprov2⟩ := ih (some a) h lh (fun x hx => by cases hx; exact hwf a rfl) hrun2
          have hla : lh ≤ a.2 := hacc2 a rfl
          refine ⟨hwf2, ?_, ?_, ?_⟩
          · intro x hx
            cases hx
            exact hla
          · intro q hq hqi
            rcases List.mem_cons.1 hq with h2 | h2
            · subst h2
              exact le_trans hla (le_of_not_lt hlt)
            · exact hrest2 q h2 hqi
          · rcases hprov2 with ⟨x, hx, h2⟩ | ⟨k, hk⟩
            · cases hx
              exact Or.inl ⟨a, rfl, h2⟩
            · exact Or.inr ⟨k, List.mem_cons_of_mem _ hk⟩
      · have hrun2 : run_select_aux (some a) rest = some (h, lh) := by
          simpa [run_select_aux, hp] using hrun
        obtain ⟨hwf2, hacc2, hrest2, hprov2⟩ := ih (some a) h lh (fun x hx => by cases hx; exact hwf a rfl) hrun2
        refine ⟨hwf2, ?_, ?_, ?_⟩
        · intro x hx
          cases hx
          exact hacc2 a rfl
        · intro q hq hqi
          rcases List.mem_cons.1 hq with h2 | h2
          · subst h2
            exact absurd hqi hp
          · exact hrest2 q h2 hqi
        · rcases hprov2 with ⟨x, hx, h2⟩ | ⟨k, hk⟩
          · cases hx
            exact Or.inl ⟨a, rfl, h2⟩
          · exact Or.inr ⟨k, List.mem_cons_of_mem _ hk⟩

theorem node_select_aux_spec (l : List (String × Server)) :
    ∀ (acc : Option (Server × Nat)) (w : Server) (lw : Nat),
    (∀ x, acc = some x → x.1.status = some ServerInitialized ∧ x.2 = x.1.coros.length) →
    node_select_aux acc l = some (w, lw) →
    (w.status = some ServerInitialized ∧ lw = w.coros.length) ∧
    (∀ x, acc = some x → lw ≤ x.2) ∧
    (∀ q ∈ l, q.2.status = some ServerInitialized → lw ≤ q.2.coros.length) ∧
    ((∃ x, acc = some x ∧ w = x.1) ∨ ∃ k, (k, w) ∈ l) := by
  induction l with
  | nil =>
    intro acc w lw hwf hrun
    simp only [node_select_aux] at hrun
    refine ⟨hwf _ hrun, ?_, ?_, Or.inl ⟨(w, lw), hrun, rfl⟩⟩
    · intro x hx
      rw [hrun] at hx
      cases hx
      exact le_rfl
    · intro q hq
      simp at hq
  | cons p rest ih =>
    intro acc w lw hwf hrun
    match acc with
    | none =>
      by_cases hp : p.2.status = some ServerInitialized
      · have hrun2 : node_select_aux (some (p.2, p.2.coros.length)) rest = some (w, lw) := by
          simpa [node_select_aux, hp] using hrun
        obtain ⟨hwf2, hacc2, hrest2, hprov2⟩ :=
          ih (some (p.2, p.2.coros.length)) w lw
            (by intro x hx; cases hx; exact ⟨hp, rfl⟩) hrun2
        refine ⟨hwf2, ?_, ?_, ?_⟩
        · intro x hx
          cases hx
        · intro q hq hqi
          rcases List.mem_cons.1 hq with h2 | h2
          · subst h2
            exact hacc2 (q.2, q.2.coros.length) rfl
          · exact hrest2 q h2 hqi
        · rcases hprov2 with ⟨x, hx, h2⟩ | ⟨k, hk⟩
          · cases hx
            exact Or.inr ⟨p.1, by rw [h2]; exact List.mem_cons_self _ _⟩
          · exact Or.inr ⟨k, List.mem_cons_of_mem _ hk⟩
      · have hrun2 : node_select_aux (none : Option (Server × Nat)) rest = some (w, lw) := by
          simpa [node_select_aux, hp] using hrun
        obtain ⟨hwf2, _, hrest2, hprov2⟩ :=
          ih none w lw (by intro x hx; cases hx) hrun2
        refine ⟨hwf2, ?_, ?_, ?_⟩
        · intro x hx
          cases hx
        · intro q hq hqi
          rcases List.mem_cons.1 hq with h2 | h2
          · subst h2
            exact absurd hqi hp
          · exact hrest2 q h2 hqi
        · rcases hprov2 with ⟨x, hx, h2⟩ | ⟨k, hk⟩
          · cases hx
          · exact Or.inr ⟨k, List.mem_cons_of_mem _ hk⟩
    | some a =>
      by_cases hp : p.2.status = some ServerInitialized
      · by_cases hlt : p.2.coros.length < a.2
        · have hrun2 : node_select_aux (some (p.2, p.2.coros.length)) rest = some (w, lw) := by
            simpa [node_select_aux, hp, hlt] using hrun
          obtain ⟨hwf2, hacc2, hrest2, hprov2⟩ :=
            ih (some (p.2, p.2.coros.length)) w lw
              (by intro x hx; cases hx; exact ⟨hp, rfl⟩) hrun2
          have hlp : lw ≤ p.2.coros.length := hacc2 (p.2, p.2.coros.length) rfl
          refine ⟨hwf2, ?_, ?_, ?_⟩
          · intro x hx
            cases hx
            exact le_trans hlp (le_of_lt hlt)
          · intro q hq hqi
            rcases List.mem_cons.1 hq with h2 | h2
            · subst h2
              exact hlp
            · exact hrest2 q h2 hqi
          · rcases hprov2 with ⟨x, hx, h2⟩ | ⟨k, hk⟩
            · cases hx
              exact Or.inr ⟨p.1, by rw [h2]; exact List.mem_cons_self _ _⟩
            · exact Or.inr ⟨k, List.mem_cons_of_mem _ hk⟩
        · have hrun2 : node_select_aux (some a) rest = some (w, lw) := by
            simpa [node_select_aux, hp, hlt] using hrun
          obtain ⟨hwf2, hacc2, hrest2, hprov2⟩ := ih (some a) w lw (fun x hx => by cases hx; exact hwf a rfl) hrun2
          have hla : lw ≤ a.2 := hacc2 a rfl
          refine ⟨hwf2, ?_, ?_, ?_⟩
          · intro x hx
            cases hx
            exact hla
          · intro q hq hqi
            rcases List.mem_cons.1 hq with h2 | h2
            · subst h2
              exact le_trans hla (le_of_not_lt hlt)
            · exact hrest2 q h2 hqi
          · rcases hprov2 with ⟨x, hx, h2⟩ | ⟨k, hk⟩
            · cases hx
              exact Or.inl ⟨a, rfl, h2⟩
            · exact Or.inr ⟨k, List.mem_cons_of_mem _ hk⟩
      · have hrun2 : node_select_aux (some a) rest = some (w, lw) := by
          simpa [node_select_aux, hp] using hrun
        obtain ⟨hwf2, hacc2, hrest2, hprov2⟩ := ih (some a) w lw (fun x hx => by cases hx; exact hwf a rfl) hrun2
        refine ⟨hwf2, ?_, ?_, ?_⟩
        · intro x hx
          cases hx
          exact hacc2 a rfl
        · intro q hq hqi
          rcases List.mem_cons.1 hq with h2 | h2
          · subst h2
            exact absurd hqi hp
          · exact hrest2 q h2 hqi
        · rcases hprov2 with ⟨x, hx, h2⟩ | ⟨k, hk⟩
          · cases hx
            exact Or.inl ⟨a, rfl, h2⟩
          · exact Or.inr ⟨k, List.mem_cons_of_mem _ hk⟩

/-- C6: an untargeted run answers null when no Initialized node exists;
otherwise the selected node is an Initialized member of the fleet whose
ncoros over number of servers is least among Initialized nodes, and the
server the spawn is handed to is an Initialized server of that node with
the fewest active tasks. -/
theorem c6_untargeted_run (st : SchedState)
    (hserv : ∀ p ∈ st.nodes, p.2.status = some NodeInitialized → p.2.servers ≠ []) :
    ((∀ p ∈ st.nodes, p.2.status ≠ some NodeInitialized) →
      sched_run st = ([ClientMsg.nullReply], none)) ∧
    (∀ h lh, run_select st.nodes = some (h, lh) →
      h.status = some NodeInitialized ∧ (∃ k, (k, h) ∈ st.nodes) ∧
      ∀ p ∈ st.nodes, p.2.status = some NodeInitialized →
        node_load h ≤ node_load p.2) ∧
    (∀ h lh s, run_select st.nodes = some (h, lh) →
      sched_run st = ([], some s) →
      s.status = some ServerInitialized ∧ (∃ k, (k, s) ∈ h.servers) ∧
      ∀ q ∈ h.servers, q.2.status = some ServerInitialized →
        s.coros.length ≤ q.2.coros.length) := by
  refine ⟨?_, ?_, ?_⟩
  · intro hno
    unfold sched_run run_select
    rw [run_select_aux_of_no_init st.nodes none hno]
  · intro h lh hrun
    obtain ⟨⟨hinit, _⟩, _, hmin, hprov⟩ :=
      run_select_aux_spec st.nodes none h lh (by intro x hx; cases hx) hrun
    refine ⟨hinit, ?_, fun p hp hpi => ?_⟩
    · rcases hprov with ⟨x, hx, _⟩ | hk
      · cases hx
      · exact hk
    · obtain ⟨⟨_, hlh⟩, _, hmin2, _⟩ :=
        run_select_aux_spec st.nodes none h lh (by intro x hx; cases hx) hrun
      rw [← hlh]
      exact hmin p hp hpi
  · intro h lh s hrun hsched
    obtain ⟨⟨hinit, _⟩, _, _, _⟩ :=
      run_select_aux_spec st.nodes none h lh (by intro x hx; cases hx) hrun
    simp only [sched_run, node_run, hrun, hinit, ne_eq, reduceIte, not_true_eq_false,
      if_false] at hsched
    match hsel : node_select_aux none h.servers with
    | none =>
      simp only [hsel] at hsched
      simp at hsched
    | some wl =>
      simp only [hsel] at hsched
      have hseq : wl.1 = s := by
        simpa using hsched
      obtain ⟨⟨hws, hwl⟩, _, hwmin, hwprov⟩ :=
        node_select_aux_spec h.servers none wl.1 wl.2
          (by intro x hx; cases hx) (by rw [← hsel])
      subst hseq
      refine ⟨hws, ?_, fun q hq hqi => ?_⟩
      · rcases hwprov with ⟨x, hx, _⟩ | hk
        · cases hx
        · exact hk
      · rw [← hwl]
        exact hwmin q hq hqi

/-- C6 witness: with loads 2 and 1/2 the second node wins the selection
and its load is at most the load of the first. -/
theorem c6_untargeted_run_witness :
    node_load nodeW6b ≤ node_load nodeW6a ∧ nodeW6b.status = some NodeInitialized :=
  ⟨((c6_untargeted_run stW6 (by decide)).2.1 nodeW6b (node_load nodeW6b)
      (by norm_num [run_select, run_select_aux, node_load, stW6, nodeW6a, nodeW6b,
        srvW6a, srvW6b, srvW6c, mkServer, NodeInitialized, ServerInitialized])).2.2
      ("10.0.0.21", nodeW6a) (by decide) (by decide),
   ((c6_untargeted_run stW6 (by decide)).2.1 nodeW6b (node_load nodeW6b)
      (by norm_num [run_select, run_select_aux, node_load, stW6, nodeW6a, nodeW6b,
        srvW6a, srvW6b, srvW6c, mkServer, NodeInitialized, ServerInitialized])).1⟩

/-! ## Claim C1: the ncoros summary invariant -/

theorem svLoad_close_server_obj (comp : Option CompSrv) (hc : comp ≠ none) (s : Server) :
    svLoad (close_server_obj comp s) = 0 := by
  unfold close_server_obj
  split_ifs with h
  · rcases h with h | h
    · exact absurd h hc
    · simp [svLoad, h]
  · push_neg at h
    simp [svLoad, ServerClosed, ServerInitialized]

theorem initLoad_map_close (comp : Option CompSrv) (hc : comp ≠ none)
    (m : List (String × Server)) :
    initLoad (m.map (fun p => (p.1, close_server_obj comp p.2))) = 0 := by
  induction m with
  | nil => rfl
  | cons p rest ih => simp [initLoad, svLoad_close_server_obj comp hc, ih]

theorem ncorosInv_close_node_obj (comp : Option CompSrv) (n : Node)
    (hn : n.ncoros = initLoad n.servers) :
    (close_node_obj comp n).ncoros = initLoad (close_node_obj comp n).servers := by
  unfold close_node_obj
  split_ifs with h
  · exact hn
  · simp [initLoad_map_close comp h]

theorem fleetInv_close_computation (st : SchedState) (h : fleetInv st) :
    fleetInv (close_computation_st st) := by
  intro p hp
  simp only [close_computation_st] at hp
  rcases List.mem_map.1 hp with ⟨q, hq, rfl⟩
  exact ncorosInv_close_node_obj _ q.2 (h q hq)

theorem svLoad_eq_zero_of (s : Server)
    (hz : s.coros = [] ∨ s.status ≠ some ServerInitialized) : svLoad s = 0 := by
  rcases hz with hz | hz
  · simp [svLoad, hz]
  · simp [svLoad, hz]

theorem svLoad_close_server_obj_of (comp : Option CompSrv) (s : Server)
    (hz : s.coros = [] ∨ s.status ≠ some ServerInitialized) :
    svLoad (close_server_obj comp s) = svLoad s := by
  unfold close_server_obj
  split_ifs with h
  · rfl
  · push_neg at h
    rcases hz with hz | hz
    · rw [svLoad_eq_zero_of _ (Or.inl hz)]
      simp [svLoad, ServerClosed, ServerInitialized]
    · exact absurd h.2 hz

/-- C1 amended: the equality n.ncoros = sum of len(s.coros) over the
Initialized servers of n is preserved by remote-task termination (when
the task lives on an Initialized server, as in every reachable state), by
spawn acknowledgment (when the acknowledged task id is fresh), and by
node close unconditionally; closing a single server, or removing a server
on peer offline, preserves it only when that server holds no tasks or is
not Initialized, and otherwise leaves ncoros over-counted. -/
theorem c1_ncoros_invariant :
    (∀ st msg, fleetInv st →
      (∀ p ∈ st.nodes, ∀ q ∈ p.2.servers,
        (dlookup msg.rcoro.rid q.2.coros).isSome → q.2.status = some ServerInitialized) →
      fleetInv (status_monitor st msg)) ∧
    (∀ st addr skey reply, fleetInv st →
      (∀ p ∈ st.nodes, ∀ q ∈ p.2.servers, ∀ r : Rcoro, reply = some r →
        dlookup r.rid q.2.coros = none) →
      fleetInv (run_on_server st addr skey reply).1) ∧
    (∀ st addr, fleetInv st → fleetInv (close_node_st st addr)) ∧
    (∀ st addr skey, fleetInv st →
      (∀ p ∈ st.nodes, ∀ q ∈ p.2.servers, q.1 = skey →
        q.2.coros = [] ∨ q.2.status ≠ some ServerInitialized) →
      fleetInv (close_server_st st addr skey)) ∧
    (∀ st pulseLoc loc, fleetInv st →
      (∀ p ∈ st.nodes, ∀ q ∈ p.2.servers, q.1 = locKey loc →
        q.2.coros = [] ∨ q.2.status ≠ some ServerInitialized) →
      fleetInv (peer_offline st pulseLoc loc)) := by
  refine ⟨?_, ?_, ?_, ?_, ?_⟩
  -- remote-task termination
  · intro st msg hInv hInit
    simp only [status_monitor]
    cases hn : dlookup msg.rcoro.location.addr st.nodes with
    | none => exact hInv
    | some node =>
      dsimp only
      cases hs : dlookup (locKey msg.rcoro.location) node.servers with
      | none => exact hInv
      | some server =>
        dsimp only
        cases hf : dlookup msg.rcoro.rid server.coros with
        | none =>
          dsimp only
          intro p hp
          rcases mem_dmodify hp with hmem | ⟨v, hv, rfl⟩
          · exact hInv p hmem
          · rw [hn] at hv
            injection hv with hveq
            subst hveq
            have hbase : node.ncoros = initLoad node.servers := hInv _ (dlookup_mem hn)
            show node.ncoros = initLoad (dmodify (locKey msg.rcoro.location) _ node.servers)
            rw [initLoad_dmodify _ hs]
            simp [svLoad, hbase]
        | some rc =>
          dsimp only
          intro p hp
          rcases mem_dmodify hp with hmem | ⟨v, hv, rfl⟩
          · exact hInv p hmem
          · rw [hn] at hv
            injection hv with hveq
            subst hveq
            have hbase : node.ncoros = initLoad node.servers := hInv _ (dlookup_mem hn)
            have hs_init : server.status = some ServerInitialized :=
              hInit _ (dlookup_mem hn) _ (dlookup_mem hs) (by rw [hf]; rfl)
            have hlen := length_derase_of_mem hf
            show node.ncoros - 1 =
              initLoad (dmodify (locKey msg.rcoro.location) _ node.servers)
            rw [initLoad_dmodify _ hs]
            simp [svLoad, hs_init]
            omega
  -- spawn acknowledgment
  · intro st addr skey reply hInv hFresh
    simp only [run_on_server]
    cases hn : dlookup addr st.nodes with
    | none => exact hInv
    | some node =>
      dsimp only
      cases hs : dlookup skey node.servers with
      | none => exact hInv
      | some server =>
        dsimp only
        by_cases hst : server.status = some ServerInitialized
        · simp only [hst, ne_eq, not_true_eq_false, if_false]
          by_cases hcomp : st.cur_computation = none
          · simp only [hcomp, if_true]
            exact hInv
          · simp only [hcomp, if_false]
            cases reply with
            | none => exact hInv
            | some r =>
              dsimp only
              have hfr : dlookup r.rid server.coros = none :=
                hFresh _ (dlookup_mem hn) _ (dlookup_mem hs) r rfl
              intro p hp
              rcases mem_dmodify hp with hmem | ⟨v, hv, rfl⟩
              · exact hInv p hmem
              · rw [hn] at hv
                injection hv with hveq
                subst hveq
                have hbase : node.ncoros = initLoad node.servers := hInv _ (dlookup_mem hn)
                show node.ncoros + (server_spawn_ack server r).2.1 =
                  initLoad (dmodify skey _ node.servers)
                rw [initLoad_dmodify _ hs]
                cases hd : dlookup r.rid server.done with
                | none =>
                  have hlen := length_dinsert_of_not_mem r hfr
                  simp [server_spawn_ack, hd, svLoad, hst]
                  omega
                | some d =>
                  simp [server_spawn_ack, hd, svLoad, hbase]
        · simp only [hst, ne_eq, not_false_eq_true, if_true]
          exact hInv
  -- node close
  · intro st addr hInv p hp
    rcases mem_dmodify hp with hmem | ⟨v, hv, rfl⟩
    · exact hInv p hmem
    · exact ncorosInv_close_node_obj st.cur_computation v (hInv _ (dlookup_mem hv))
  -- server close
  · intro st addr skey hInv hz p hp
    rcases mem_dmodify hp with hmem | ⟨v, hv, rfl⟩
    · exact hInv p hmem
    · cases hs : dlookup skey v.servers with
      | none =>
        show v.ncoros = initLoad (dmodify skey _ v.servers)
        rw [dmodify_of_lookup_none _ hs]
        exact hInv _ (dlookup_mem hv)
      | some server =>
        have hz2 : server.coros = [] ∨ server.status ≠ some ServerInitialized :=
          hz _ (dlookup_mem hv) _ (dlookup_mem hs) rfl
        have hbase : v.ncoros = initLoad v.servers := hInv _ (dlookup_mem hv)
        show v.ncoros = initLoad (dmodify skey _ v.servers)
        rw [initLoad_dmodify _ hs, svLoad_close_server_obj_of _ _ hz2]
        simp [hbase]
  -- peer offline
  · intro st pulseLoc loc hInv hz
    simp only [peer_offline]
    cases hn : dlookup loc.addr st.nodes with
    | none =>
      dsimp only
      by_cases hcp : st.cur_computation ≠ none ∧ pulseLoc = some loc
      · rw [if_pos hcp]
        exact fleetInv_close_computation st hInv
      · rw [if_neg hcp]
        exact hInv
    | some node =>
      dsimp only
      cases hs : dlookup (locKey loc) node.servers with
      | none => exact hInv
      | some server =>
        dsimp only
        by_cases hne : derase (locKey loc) node.servers = []
        · simp only [hne, ne_eq, not_true_eq_false, if_false]
          intro p hp
          exact hInv p (mem_derase hp)
        · simp only [ne_eq, hne, not_false_eq_true, if_true]
          intro p hp
          rcases mem_dmodify hp with hmem | ⟨v, hv, rfl⟩
          · exact hInv p hmem
          · rw [hn] at hv
            injection hv with hveq
            subst hveq
            have hz2 : server.coros = [] ∨ server.status ≠ some ServerInitialized :=
              hz _ (dlookup_mem hn) _ (dlookup_mem hs) rfl
            have hbase : node.ncoros = initLoad node.servers := hInv _ (dlookup_mem hn)
            show node.ncoros = initLoad (derase (locKey loc) node.servers)
            rw [initLoad_derase hs, svLoad_eq_zero_of _ hz2]
            simp [hbase]

/-- C1 counterexample: with one Initialized server running one task and a
correct counter, closing that server (a zombie close) empties its task
map without touching the node counter: afterwards ncoros is 1 while the
sum over Initialized servers is 0. -/
theorem c1_counterexample :
    fleetInv stW1 ∧ stW1.cur_computation.isSome ∧
    srvW1.status = some ServerInitialized ∧ srvW1.coros.length = 1 ∧
    ¬ fleetInv (close_server_st stW1 "10.0.0.1" "10.0.0.1:9001") := by decide

/-- C1 witness: node close restores the invariant on the concrete state. -/
theorem c1_ncoros_invariant_witness :
    fleetInv (close_node_st stW1 "10.0.0.1") :=
  c1_ncoros_invariant.2.2.1 stW1 "10.0.0.1" (by decide)

end Discoro
